import Mathlib

/-!
Shallow embedding of the StockSight core (src/database.py and the
fetch_data orchestrator of src/app.py).

Modelling conventions:
- Time is a Nat tick (days for dates, abstract ticks for timestamps);
  datetime.now() / datetime.utcnow() become an explicit `now` argument.
- Each database table is a Lean list of row structures; the SQLAlchemy
  session transaction of every operation either commits (the pure state
  update below) or hits an exception and rolls back.  The possibility of
  an exception inside an operation body is modelled by an explicit
  `fail : Bool` argument: `fail = true` means some statement of the
  transaction raised, so the except-branch of the source runs (rollback,
  st.error, safe default return value).
- Floats (prices) carry no arithmetic in the verified code, so they are
  modelled as Int.
- A pandas DataFrame of OHLCV rows is a List Bar (index Date plus the
  Open/High/Low/Close/Volume columns used by the source).
- A yfinance info dict is the InfoDict structure; a missing key is none.
-/

/-- One row of the stock_data table (class StockData in src/database.py). -/
structure StockData where
  symbol : String
  date : Nat
  open_price : Int
  high_price : Int
  low_price : Int
  close_price : Int
  volume : Int
  created_at : Nat
deriving Repr, DecidableEq

/-- One row of a historical-prices DataFrame: the Date index plus the
columns the source reads. -/
structure Bar where
  date : Nat
  Open : Int
  High : Int
  Low : Int
  Close : Int
  Volume : Int
deriving Repr, DecidableEq

/-- One row of the company_info table (class CompanyInfo in src/database.py). -/
structure CompanyInfo where
  symbol : String
  company_name : String
  sector : String
  industry : String
  market_cap : Option Int
  pe_ratio : Option Int
  dividend_yield : Option Int
  fifty_two_week_high : Option Int
  fifty_two_week_low : Option Int
  business_summary : String
  last_updated : Nat
deriving Repr, DecidableEq

/-- The yfinance ticker.info dict, restricted to the keys the source
reads; a key that may be absent is an Option. -/
structure InfoDict where
  regularMarketPrice : Option Int
  longName : Option String
  sector : Option String
  industry : Option String
  marketCap : Option Int
  trailingPE : Option Int
  dividendYield : Option Int
  fiftyTwoWeekHigh : Option Int
  fiftyTwoWeekLow : Option Int
  longBusinessSummary : Option String
deriving Repr, DecidableEq

/-- One row of the user_watchlist table (class UserWatchlist in
src/database.py). -/
structure UserWatchlist where
  symbol : String
  added_at : Nat
  is_active : Bool
deriving Repr, DecidableEq

/-- The database state: the three tables touched by the verified
operations (analysis_cache is present in the schema but unused). -/
structure DB where
  stock_data : List StockData
  company_info : List CompanyInfo
  user_watchlist : List UserWatchlist
deriving Repr, DecidableEq

def emptyDB : DB := ⟨[], [], []⟩

/-- Building a StockData row from a DataFrame row, as the loop of
save_stock_data does; created_at defaults to utcnow. -/
def barToRow (symbol : String) (now : Nat) (b : Bar) : StockData :=
  ⟨symbol, b.date, b.Open, b.High, b.Low, b.Close, b.Volume, now⟩

/-- Reading a StockData row back into a DataFrame row, as
get_cached_stock_data does. -/
def rowToBar (r : StockData) : Bar :=
  ⟨r.date, r.open_price, r.high_price, r.low_price, r.close_price, r.volume⟩

/-- save_stock_data(symbol, historical_data) from src/database.py:
delete all rows for symbol with date >= now - 30 days, insert one row
per DataFrame row, commit and return True; on any exception roll back
and return False. -/
def save_stock_data (db : DB) (symbol : String) (historical_data : List Bar)
    (now : Nat) (fail : Bool) : DB × Bool :=
  if fail then (db, false)
  else
    let cutoff_date := now - 30
    let kept := db.stock_data.filter
      (fun r => !(r.symbol == symbol && decide (cutoff_date ≤ r.date)))
    ({ db with stock_data := kept ++ historical_data.map (barToRow symbol now) }, true)

/-- The period-to-days map of get_cached_stock_data, default 365. -/
def windowDays (period : String) : Nat :=
  if period == "1mo" then 30
  else if period == "3mo" then 90
  else if period == "6mo" then 180
  else if period == "1y" then 365
  else if period == "2y" then 730
  else 365

/-- Insert into a list sorted by the Bool comparison f. -/
def insertLe (f : α → α → Bool) (a : α) : List α → List α
  | [] => [a]
  | x :: xs => if f a x then a :: x :: xs else x :: insertLe f a xs

/-- Insertion sort by the Bool comparison f; models an ORDER BY clause. -/
def sortLe (f : α → α → Bool) : List α → List α
  | [] => []
  | x :: xs => insertLe f x (sortLe f xs)

/-- ORDER BY date ascending. -/
def dateLe (a b : StockData) : Bool := decide (a.date ≤ b.date)

/-- ORDER BY added_at descending. -/
def addedGe (a b : UserWatchlist) : Bool := decide (b.added_at ≤ a.added_at)

/-- get_cached_stock_data(symbol, period) from src/database.py: rows for
symbol with date >= now - windowDays(period), ordered by date ascending,
turned back into a DataFrame if any, else None; None on exception. -/
def get_cached_stock_data (db : DB) (symbol : String) (period : String)
    (now : Nat) (fail : Bool) : Option (List Bar) :=
  if fail then none
  else
    let start_date := now - windowDays period
    let records := sortLe dateLe (db.stock_data.filter
      (fun r => r.symbol == symbol && decide (start_date ≤ r.date)))
    if records.isEmpty then none else some (records.map rowToBar)

/-- The dict get_company_info_from_db builds from a CompanyInfo row; it
has no regularMarketPrice key. -/
def rowToInfo (c : CompanyInfo) : InfoDict :=
  { regularMarketPrice := none
    longName := some c.company_name
    sector := some c.sector
    industry := some c.industry
    marketCap := c.market_cap
    trailingPE := c.pe_ratio
    dividendYield := c.dividend_yield
    fiftyTwoWeekHigh := c.fifty_two_week_high
    fiftyTwoWeekLow := c.fifty_two_week_low
    longBusinessSummary := some c.business_summary }

/-- get_company_info_from_db(symbol) from src/database.py: first row for
symbol or None; None on exception. -/
def get_company_info_from_db (db : DB) (symbol : String) (fail : Bool) :
    Option InfoDict :=
  if fail then none
  else
    match db.company_info.find? (fun c => c.symbol == symbol) with
    | some c => some (rowToInfo c)
    | none => none

/-- The CompanyInfo row save_company_info builds from a yfinance dict:
string fields default to the empty string, numeric fields stay optional,
last_updated defaults to utcnow. -/
def infoToRow (symbol : String) (d : InfoDict) (now : Nat) : CompanyInfo :=
  { symbol := symbol
    company_name := d.longName.getD ""
    sector := d.sector.getD ""
    industry := d.industry.getD ""
    market_cap := d.marketCap
    pe_ratio := d.trailingPE
    dividend_yield := d.dividendYield
    fifty_two_week_high := d.fiftyTwoWeekHigh
    fifty_two_week_low := d.fiftyTwoWeekLow
    business_summary := d.longBusinessSummary.getD ""
    last_updated := now }

/-- save_company_info(symbol, company_data) from src/database.py: if a
row for symbol exists, UPDATE every row WHERE symbol matches to the new
values (setting last_updated to utcnow), else INSERT a fresh row; True
on commit, rollback and False on exception. -/
def save_company_info (db : DB) (symbol : String) (company_data : InfoDict)
    (now : Nat) (fail : Bool) : DB × Bool :=
  if fail then (db, false)
  else if (db.company_info.find? (fun c => c.symbol == symbol)).isSome then
    let updated := db.company_info.map
      (fun c => if c.symbol == symbol then infoToRow symbol company_data now else c)
    ({ db with company_info := updated }, true)
  else
    ({ db with company_info := db.company_info ++ [infoToRow symbol company_data now] },
      true)

/-- add_to_watchlist(symbol) from src/database.py: no-op returning False
if an active row for symbol exists, else insert a fresh active row
(added_at utcnow, is_active True) and return True; rollback and False on
exception. -/
def add_to_watchlist (db : DB) (symbol : String) (now : Nat) (fail : Bool) :
    DB × Bool :=
  if fail then (db, false)
  else if db.user_watchlist.any (fun w => w.symbol == symbol && w.is_active) then
    (db, false)
  else
    ({ db with user_watchlist := db.user_watchlist ++ [⟨symbol, now, true⟩] }, true)

/-- remove_from_watchlist(symbol) from src/database.py: if an active row
for symbol exists, UPDATE every row WHERE symbol matches to
is_active = False and return True, else return False; rollback and False
on exception. -/
def remove_from_watchlist (db : DB) (symbol : String) (fail : Bool) :
    DB × Bool :=
  if fail then (db, false)
  else if db.user_watchlist.any (fun w => w.symbol == symbol && w.is_active) then
    let updated := db.user_watchlist.map
      (fun w => if w.symbol == symbol then { w with is_active := false } else w)
    ({ db with user_watchlist := updated }, true)
  else (db, false)

/-- get_watchlist() from src/database.py: symbols of the active rows,
ORDER BY added_at descending; empty list on exception. -/
def get_watchlist (db : DB) (fail : Bool) : List String :=
  if fail then []
  else (sortLe addedGe (db.user_watchlist.filter (fun w => w.is_active))).map
    (fun w => w.symbol)

/-- A single-quote character as a string, for the f-string below. -/
def sQuote : String := ⟨['\x27']⟩

/-- The ValueError message of fetch_data when the info dict has no
regularMarketPrice key. -/
def notFoundMsg (symbol : String) : String :=
  ("Symbol " ++ sQuote ++ symbol ++ sQuote ++ " ") ++
    ("not found" ++ " or no data available.")

/-- Outcome of the yfinance calls inside fetch_data: either some call
raised (network, throttling, bad symbol crash) with message msg, or both
calls returned, yielding a history DataFrame and an info dict. -/
inductive LiveOutcome where
  | raises (msg : String)
  | ok (hist : List Bar) (info : InfoDict)
deriving Repr, DecidableEq

/-- The dict fetch_data returns. -/
structure FetchResult where
  historical : Option (List Bar)
  info : Option InfoDict
  success : Bool
  error : Option String
deriving Repr, DecidableEq

/-- fetch_data(symbol, period, interval) from src/app.py: read the
cached bars and cached company info, then try the live fetch.  On
success, raise if the info dict lacks regularMarketPrice, else persist
the non-empty history and the (necessarily non-empty, hence truthy)
info dict and return them with success True.  On any exception, return
the two cached values with success True if both are present, else a
failure result carrying the exception message.  rf1/rf2 are the
exception flags of the two cache reads, sf1/sf2 those of the two writes. -/
def fetch_data (db : DB) (symbol period interval : String) (now : Nat)
    (rf1 rf2 sf1 sf2 : Bool) (live : LiveOutcome) : DB × FetchResult :=
  let cached := get_cached_stock_data db symbol period now rf1
  let cached_info := get_company_info_from_db db symbol rf2
  let onFailure : String → DB × FetchResult := fun msg =>
    if cached.isSome && cached_info.isSome then
      (db, ⟨cached, cached_info, true, none⟩)
    else
      (db, ⟨none, none, false, some msg⟩)
  match live with
  | .raises msg => onFailure msg
  | .ok hist info =>
    if !info.regularMarketPrice.isSome then onFailure (notFoundMsg symbol)
    else
      let db1 := if hist.isEmpty then db else (save_stock_data db symbol hist now sf1).1
      let db2 := (save_company_info db1 symbol info now sf2).1
      (db2, ⟨some hist, some info, true, none⟩)

/-! Helper lemmas about the insertion sort modelling ORDER BY. -/

theorem mem_insertLe {α : Type} (f : α → α → Bool) (a x : α) (l : List α) :
    x ∈ insertLe f a l ↔ x = a ∨ x ∈ l := by
  induction l with
  | nil => simp [insertLe]
  | cons y ys ih =>
    simp only [insertLe]
    split
    · simp [List.mem_cons]
    · simp only [List.mem_cons, ih]
      tauto

theorem insertLe_ne_nil {α : Type} (f : α → α → Bool) (a : α) (l : List α) :
    insertLe f a l ≠ [] := by
  cases l with
  | nil => simp [insertLe]
  | cons y ys =>
    simp only [insertLe]
    split <;> simp

theorem mem_sortLe {α : Type} (f : α → α → Bool) (x : α) (l : List α) :
    x ∈ sortLe f l ↔ x ∈ l := by
  induction l with
  | nil => simp [sortLe]
  | cons y ys ih =>
    simp only [sortLe, mem_insertLe, ih, List.mem_cons]

theorem sortLe_eq_nil {α : Type} (f : α → α → Bool) (l : List α) :
    sortLe f l = [] ↔ l = [] := by
  cases l with
  | nil => simp [sortLe]
  | cons y ys => simp [sortLe, insertLe_ne_nil]

theorem pairwise_insertLe {α : Type} (f : α → α → Bool)
    (htot : ∀ a b, f a b = false → f b a = true)
    (htrans : ∀ a b c, f a b = true → f b c = true → f a c = true)
    (a : α) (l : List α) (h : l.Pairwise (fun x y => f x y = true)) :
    (insertLe f a l).Pairwise (fun x y => f x y = true) := by
  induction l with
  | nil => simp [insertLe]
  | cons y ys ih =>
    rcases List.pairwise_cons.mp h with ⟨hy, hys⟩
    simp only [insertLe]
    split
    case isTrue hfa =>
      refine List.pairwise_cons.mpr ⟨?_, h⟩
      intro z hz
      rcases List.mem_cons.mp hz with hzy | hzys
      · exact hzy ▸ hfa
      · exact htrans a y z hfa (hy z hzys)
    case isFalse hfa =>
      refine List.pairwise_cons.mpr ⟨?_, ih hys⟩
      intro z hz
      rcases (mem_insertLe f a z ys).mp hz with hza | hzys
      · exact hza ▸ htot a y (Bool.eq_false_iff.mpr hfa)
      · exact hy z hzys

theorem pairwise_sortLe {α : Type} (f : α → α → Bool)
    (htot : ∀ a b, f a b = false → f b a = true)
    (htrans : ∀ a b c, f a b = true → f b c = true → f a c = true)
    (l : List α) : (sortLe f l).Pairwise (fun x y => f x y = true) := by
  induction l with
  | nil => simp [sortLe]
  | cons y ys ih => exact pairwise_insertLe f htot htrans y (sortLe f ys) ih

theorem mem_get_watchlist (db : DB) (s : String) :
    s ∈ get_watchlist db false ↔
      ∃ w ∈ db.user_watchlist, w.is_active = true ∧ w.symbol = s := by
  simp only [get_watchlist, Bool.false_eq_true, if_false, List.mem_map, mem_sortLe,
    List.mem_filter]
  constructor
  · rintro ⟨w, ⟨hw, hact⟩, hsym⟩
    exact ⟨w, hw, hact, hsym⟩
  · rintro ⟨w, hw, hact, hsym⟩
    exact ⟨w, ⟨hw, hact⟩, hsym⟩

/-- C5: add_to_watchlist(S) is a no-op returning False when an active
row for S already exists; otherwise it appends exactly one new active
row and returns True; hence add(S) twice starting from a state with no
active row for S leaves exactly one active membership for S, the second
call returning False. -/
theorem add_to_watchlist_idempotent (db : DB) (S : String) (t1 t2 : Nat) :
    (db.user_watchlist.any (fun w => w.symbol == S && w.is_active) = true →
      add_to_watchlist db S t1 false = (db, false)) ∧
    (db.user_watchlist.any (fun w => w.symbol == S && w.is_active) = false →
      add_to_watchlist db S t1 false =
        ({ db with user_watchlist := db.user_watchlist ++ [⟨S, t1, true⟩] }, true)) ∧
    (db.user_watchlist.countP (fun w => w.symbol == S && w.is_active) = 0 →
      (add_to_watchlist ((add_to_watchlist db S t1 false).1) S t2 false).2 = false ∧
      ((add_to_watchlist ((add_to_watchlist db S t1 false).1) S t2 false).1).user_watchlist.countP
        (fun w => w.symbol == S && w.is_active) = 1) := by
  refine ⟨?_, ?_, ?_⟩
  · intro h
    simp [add_to_watchlist, h]
  · intro h
    simp [add_to_watchlist, h]
  · intro h0
    have hany : db.user_watchlist.any (fun w => w.symbol == S && w.is_active) = false := by
      rw [List.any_eq_false]
      rw [List.countP_eq_zero] at h0
      exact h0
    have h1 : (add_to_watchlist db S t1 false).1 =
        { db with user_watchlist := db.user_watchlist ++ [⟨S, t1, true⟩] } := by
      simp [add_to_watchlist, hany]
    rw [h1]
    have hany2 : (db.user_watchlist ++ [(⟨S, t1, true⟩ : UserWatchlist)]).any
        (fun w => w.symbol == S && w.is_active) = true := by
      rw [List.any_eq_true]
      exact ⟨⟨S, t1, true⟩, by simp, by simp⟩
    constructor
    · simp [add_to_watchlist, hany2]
    · simp [add_to_watchlist, hany2, List.countP_append, h0, List.countP_cons]

/-- C6: remove_from_watchlist(S) returns True exactly when an active row
for S exists (marking every row for S inactive), returns False as a
no-op otherwise — including for a symbol never added; and after
add_to_watchlist(S) followed by remove_from_watchlist(S), get_watchlist
excludes S. -/
theorem remove_from_watchlist_deactivates (db : DB) (S : String) (t : Nat) :
    ((remove_from_watchlist db S false).2 = true ↔
      ∃ w ∈ db.user_watchlist, w.symbol = S ∧ w.is_active = true) ∧
    (∀ w ∈ ((remove_from_watchlist db S false).1).user_watchlist,
      w.symbol = S → w.is_active = false) ∧
    (db.user_watchlist.any (fun w => w.symbol == S && w.is_active) = false →
      remove_from_watchlist db S false = (db, false)) ∧
    (S ∉ get_watchlist
      ((remove_from_watchlist ((add_to_watchlist db S t false).1) S false).1) false) := by
  have hmain : ∀ d : DB,
      (∀ w ∈ ((remove_from_watchlist d S false).1).user_watchlist,
        w.symbol = S → w.is_active = false) := by
    intro d w hw hsym
    by_cases hany : d.user_watchlist.any (fun x => x.symbol == S && x.is_active) = true
    · simp only [remove_from_watchlist, Bool.false_eq_true, if_false, hany, if_true] at hw
      rcases List.mem_map.mp hw with ⟨w0, _, hw0⟩
      subst hw0
      by_cases h0 : w0.symbol == S
      · simp [h0]
      · exfalso
        simp only [h0, if_false] at hsym
        exact absurd (beq_iff_eq.mpr hsym) h0
    · rw [Bool.not_eq_true] at hany
      simp only [remove_from_watchlist, Bool.false_eq_true, if_false, hany] at hw
      rw [List.any_eq_false] at hany
      have := hany w hw
      simp only [hsym, beq_self_eq_true, Bool.true_and, Bool.not_eq_true] at this
      exact this
  refine ⟨?_, hmain db, ?_, ?_⟩
  · by_cases hany : db.user_watchlist.any (fun x => x.symbol == S && x.is_active) = true
    · simp only [remove_from_watchlist, Bool.false_eq_true, if_false, hany, if_true]
      rw [List.any_eq_true] at hany
      rcases hany with ⟨w, hw, hpw⟩
      simp only [Bool.and_eq_true, beq_iff_eq] at hpw
      exact iff_of_true trivial ⟨w, hw, hpw.1, hpw.2⟩
    · rw [Bool.not_eq_true] at hany
      simp only [remove_from_watchlist, Bool.false_eq_true, if_false, hany]
      rw [List.any_eq_false] at hany
      constructor
      · intro h
        exact absurd h (by simp)
      · rintro ⟨w, hw, hsym, hact⟩
        have := hany w hw
        simp [hsym, hact] at this
  · intro hany
    simp [remove_from_watchlist, hany]
  · intro hmem
    rcases (mem_get_watchlist _ S).mp hmem with ⟨w, hw, hact, hsym⟩
    have := hmain ((add_to_watchlist db S t false).1) w hw hsym
    rw [this] at hact
    exact Bool.false_ne_true hact

/-- C7: get_watchlist lists the symbols of exactly the currently active
rows, ordered by added_at descending — and added_at is the moment the
row entered the Active state, since rows are only ever created active
and never re-activated; concretely, add(AAPL) then add(TSLA) lists
TSLA before AAPL, and a subsequent remove(AAPL) leaves just TSLA. -/
theorem get_watchlist_order (db : DB) :
    (∀ s, s ∈ get_watchlist db false ↔
      ∃ w ∈ db.user_watchlist, w.is_active = true ∧ w.symbol = s) ∧
    (sortLe addedGe (db.user_watchlist.filter (fun w => w.is_active))).Pairwise
      (fun a b => b.added_at ≤ a.added_at) ∧
    get_watchlist db false =
      (sortLe addedGe (db.user_watchlist.filter (fun w => w.is_active))).map
        (fun w => w.symbol) ∧
    get_watchlist ((add_to_watchlist emptyDB "AAPL" 1 false).1) false = ["AAPL"] ∧
    get_watchlist ((add_to_watchlist ((add_to_watchlist emptyDB "AAPL" 1 false).1)
      "TSLA" 2 false).1) false = ["TSLA", "AAPL"] ∧
    get_watchlist ((remove_from_watchlist
      ((add_to_watchlist ((add_to_watchlist emptyDB "AAPL" 1 false).1)
        "TSLA" 2 false).1) "AAPL" false).1) false = ["TSLA"] := by
  refine ⟨mem_get_watchlist db, ?_, by simp [get_watchlist], by decide, by decide, by decide⟩
  have htot : ∀ a b : UserWatchlist, addedGe a b = false → addedGe b a = true := by
    intro a b hab
    simp only [addedGe, decide_eq_false_iff_not, not_le] at hab
    simp only [addedGe, decide_eq_true_eq]
    omega
  have htrans : ∀ a b c : UserWatchlist,
      addedGe a b = true → addedGe b c = true → addedGe a c = true := by
    intro a b c hab hbc
    simp only [addedGe, decide_eq_true_eq] at *
    omega
  have h := pairwise_sortLe addedGe htot htrans
    (db.user_watchlist.filter (fun w => w.is_active))
  refine h.imp ?_
  intro a b hab
  simpa [addedGe] using hab

/-- At most one active watchlist row per symbol. -/
def atMostOneActive (db : DB) : Prop :=
  ∀ S : String, db.user_watchlist.countP (fun w => w.symbol == S && w.is_active) ≤ 1

/-- C9: every watchlist operation preserves the invariant that each
symbol has at most one active row: add_to_watchlist inserts only after
finding no active row for the symbol, remove_from_watchlist deactivates
every row for the symbol, and get_watchlist does not modify state. -/
theorem watchlist_at_most_one_active (db : DB) (S : String) (now : Nat) (f : Bool)
    (h : atMostOneActive db) :
    atMostOneActive ((add_to_watchlist db S now f).1) ∧
    atMostOneActive ((remove_from_watchlist db S f).1) := by
  constructor
  · intro T
    cases f with
    | true => simpa [add_to_watchlist] using h T
    | false =>
      by_cases hany : db.user_watchlist.any (fun w => w.symbol == S && w.is_active) = true
      · simpa [add_to_watchlist, hany] using h T
      · rw [Bool.not_eq_true] at hany
        simp only [add_to_watchlist, Bool.false_eq_true, if_false, hany, List.countP_append]
        by_cases hST : S = T
        · subst hST
          have h0 : db.user_watchlist.countP (fun w => w.symbol == S && w.is_active) = 0 := by
            rw [List.countP_eq_zero]
            rw [List.any_eq_false] at hany
            exact hany
          simp [h0, List.countP_cons]
        · have h1 : List.countP (fun w => w.symbol == T && w.is_active)
              [(⟨S, now, true⟩ : UserWatchlist)] = 0 := by
            simp [List.countP_cons, hST]
          rw [h1]
          simpa using h T
  · intro T
    cases f with
    | true => simpa [remove_from_watchlist] using h T
    | false =>
      by_cases hany : db.user_watchlist.any (fun w => w.symbol == S && w.is_active) = true
      · simp only [remove_from_watchlist, Bool.false_eq_true, if_false, hany, if_true]
        rw [List.countP_map]
        by_cases hST : T = S
        · subst hST
          have h0 : List.countP ((fun w : UserWatchlist => w.symbol == T && w.is_active) ∘
              (fun w => if w.symbol == T then { w with is_active := false } else w))
              db.user_watchlist = 0 := by
            rw [List.countP_eq_zero]
            intro w _
            by_cases hw : w.symbol == T
            · simp [Function.comp, hw]
            · simp [Function.comp, hw]
          rw [h0]
          omega
        · have hfun : ((fun w : UserWatchlist => w.symbol == T && w.is_active) ∘
              (fun w => if w.symbol == S then { w with is_active := false } else w)) =
              (fun w : UserWatchlist => w.symbol == T && w.is_active) := by
            funext w
            by_cases hw : w.symbol == S
            · have hwS : w.symbol = S := beq_iff_eq.mp hw
              have hne : S ≠ T := fun he => hST he.symm
              simp [Function.comp, hw, hwS, hne]
            · simp [Function.comp, hw]
          rw [hfun]
          exact h T
      · rw [Bool.not_eq_true] at hany
        simpa [remove_from_watchlist, hany] using h T

theorem filter_map_barToRow (S : String) (now : Nat) (p : Nat → Bool) (bs : List Bar) :
    (bs.map (barToRow S now)).filter (fun r => r.symbol == S && p r.date) =
      (bs.filter (fun b => p b.date)).map (barToRow S now) := by
  induction bs with
  | nil => simp
  | cons b bs ih =>
    simp only [List.map_cons, List.filter_cons]
    by_cases hp : p b.date
    · simp [barToRow, hp, ih]
    · simp [barToRow, hp, ih]

/-- C3: save_stock_data(S, bars) deletes every stored row for S with
date at least now - 30 days, then inserts one row per provided bar,
returning True; when the transaction raises it rolls back (state
unchanged) and returns False; and two successive calls leave, among the
rows at or after the 30-day cutoff, exactly the rows of the second
call. -/
theorem save_stock_data_delete_insert (db : DB) (S : String)
    (bars bars2 : List Bar) (now : Nat) :
    save_stock_data db S bars now false =
      ({ db with stock_data :=
        db.stock_data.filter (fun r => !(r.symbol == S && decide (now - 30 ≤ r.date))) ++
          bars.map (barToRow S now) }, true) ∧
    save_stock_data db S bars now true = (db, false) ∧
    ((save_stock_data ((save_stock_data db S bars now false).1) S bars2 now false).1).stock_data.filter
        (fun r => r.symbol == S && decide (now - 30 ≤ r.date)) =
      (bars2.filter (fun b => decide (now - 30 ≤ b.date))).map (barToRow S now) := by
  refine ⟨by simp [save_stock_data], by simp [save_stock_data], ?_⟩
  simp only [save_stock_data, Bool.false_eq_true, if_false]
  rw [List.filter_append, List.filter_filter]
  have h1 : ∀ l : List StockData,
      l.filter (fun a => (a.symbol == S && decide (now - 30 ≤ a.date)) &&
        !(a.symbol == S && decide (now - 30 ≤ a.date))) = [] := by
    intro l
    simp
  rw [h1, List.nil_append]
  exact filter_map_barToRow S now (fun d => decide (now - 30 ≤ d)) bars2

/-- C10: save_stock_data never touches rows strictly older than the
30-day cutoff, and provided bars older than the cutoff are inserted in
addition to whatever rows already exist for the same symbol and date,
so duplicate rows accumulate for those dates. -/
theorem save_stock_data_frame_old_rows (db : DB) (S : String) (bars : List Bar)
    (now : Nat) (d : Nat) (hd : d < now - 30) :
    (∀ r ∈ db.stock_data, r.date < now - 30 →
      r ∈ ((save_stock_data db S bars now false).1).stock_data) ∧
    ((save_stock_data db S bars now false).1).stock_data.countP
        (fun r => r.symbol == S && r.date == d) =
      db.stock_data.countP (fun r => r.symbol == S && r.date == d) +
        bars.countP (fun b => b.date == d) := by
  constructor
  · intro r hr hrd
    simp only [save_stock_data, Bool.false_eq_true, if_false]
    apply List.mem_append_left
    rw [List.mem_filter]
    refine ⟨hr, ?_⟩
    have hdec : decide (now - 30 ≤ r.date) = false := decide_eq_false (by omega)
    simp only [hdec, Bool.and_false, Bool.not_false]
  · simp only [save_stock_data, Bool.false_eq_true, if_false, List.countP_append]
    have h1 : db.stock_data.countP (fun a =>
        (a.symbol == S && a.date == d) &&
          !(a.symbol == S && decide (now - 30 ≤ a.date))) =
        db.stock_data.countP (fun r => r.symbol == S && r.date == d) := by
      apply List.countP_congr
      intro a _
      by_cases hp : (a.symbol == S && a.date == d) = true
      · have had : a.date = d := by
          simp only [Bool.and_eq_true, beq_iff_eq] at hp
          exact hp.2
        have hdec : decide (now - 30 ≤ a.date) = false := decide_eq_false (by omega)
        simp only [hp, hdec, Bool.and_false, Bool.not_false, Bool.true_and]
      · rw [Bool.not_eq_true] at hp
        simp [hp]
    have h2 : (bars.map (barToRow S now)).countP
        (fun r => r.symbol == S && r.date == d) =
        bars.countP (fun b => b.date == d) := by
      rw [List.countP_map]
      apply List.countP_congr
      intro b _
      simp [Function.comp, barToRow]
    rw [List.countP_filter, h1, h2]

theorem dateLe_total : ∀ a b : StockData, dateLe a b = false → dateLe b a = true := by
  intro a b hab
  simp only [dateLe, decide_eq_false_iff_not, not_le] at hab
  simp only [dateLe, decide_eq_true_eq]
  omega

theorem dateLe_trans : ∀ a b c : StockData,
    dateLe a b = true → dateLe b c = true → dateLe a c = true := by
  intro a b c hab hbc
  simp only [dateLe, decide_eq_true_eq] at *
  omega

/-- C4: get_cached_stock_data(S, p) maps the period p to a lookback
window of 30/90/180/365/730 days for 1mo/3mo/6mo/1y/2y and 365 days for
anything else, returns None exactly when no stored row for S lies at or
after now minus that window, and otherwise returns the bars of exactly
those rows, ordered by date ascending — in particular never a bar older
than the window. -/
theorem get_cached_stock_data_window (db : DB) (S p : String) (now : Nat) :
    (windowDays "1mo" = 30 ∧ windowDays "3mo" = 90 ∧ windowDays "6mo" = 180 ∧
      windowDays "1y" = 365 ∧ windowDays "2y" = 730) ∧
    (p ≠ "1mo" → p ≠ "3mo" → p ≠ "6mo" → p ≠ "1y" → p ≠ "2y" → windowDays p = 365) ∧
    (get_cached_stock_data db S p now false = none ↔
      ∀ r ∈ db.stock_data, ¬(r.symbol = S ∧ now - windowDays p ≤ r.date)) ∧
    (∀ bars, get_cached_stock_data db S p now false = some bars →
      bars ≠ [] ∧
      bars.Pairwise (fun a b => a.date ≤ b.date) ∧
      (∀ b ∈ bars, now - windowDays p ≤ b.date) ∧
      (∀ b, b ∈ bars ↔ ∃ r ∈ db.stock_data,
        r.symbol = S ∧ now - windowDays p ≤ r.date ∧ rowToBar r = b)) := by
  refine ⟨by decide, ?_, ?_, ?_⟩
  · intro h1 h2 h3 h4 h5
    simp [windowDays, h1, h2, h3, h4, h5]
  · simp only [get_cached_stock_data, Bool.false_eq_true, if_false]
    by_cases hrec : (sortLe dateLe (db.stock_data.filter
        (fun r => r.symbol == S && decide (now - windowDays p ≤ r.date)))).isEmpty = true
    · simp only [hrec, if_true, true_iff]
      rw [List.isEmpty_iff, sortLe_eq_nil, List.filter_eq_nil_iff] at hrec
      intro r hr hcon
      exact hrec r hr (by simp [hcon.1, hcon.2])
    · simp only [hrec, if_false]
      rw [Bool.not_eq_true, List.isEmpty_eq_false, ← List.length_pos_iff_ne_nil] at hrec
      constructor
      · intro hcon
        exact absurd hcon (by simp)
      · intro hall
        exfalso
        rcases List.exists_mem_of_length_pos hrec with ⟨r, hrmem⟩
        rw [mem_sortLe, List.mem_filter] at hrmem
        rcases hrmem with ⟨hrd, hpred⟩
        simp only [Bool.and_eq_true, beq_iff_eq, decide_eq_true_eq] at hpred
        exact hall r hrd hpred
  · intro bars hbars
    simp only [get_cached_stock_data, Bool.false_eq_true, if_false] at hbars
    by_cases hrec : (sortLe dateLe (db.stock_data.filter
        (fun r => r.symbol == S && decide (now - windowDays p ≤ r.date)))).isEmpty = true
    · rw [if_pos hrec] at hbars
      exact absurd hbars (by simp)
    · rw [if_neg hrec] at hbars
      have hbars2 : bars = (sortLe dateLe (db.stock_data.filter
          (fun r => r.symbol == S && decide (now - windowDays p ≤ r.date)))).map rowToBar := by
        exact (Option.some_injective _ hbars).symm
      rw [Bool.not_eq_true, List.isEmpty_eq_false] at hrec
      refine ⟨?_, ?_, ?_, ?_⟩
      · rw [hbars2]
        simpa using hrec
      · rw [hbars2, List.pairwise_map]
        have h := pairwise_sortLe dateLe dateLe_total dateLe_trans
          (db.stock_data.filter (fun r => r.symbol == S && decide (now - windowDays p ≤ r.date)))
        refine h.imp ?_
        intro a b hab
        simpa [dateLe, rowToBar] using hab
      · intro b hb
        rw [hbars2, List.mem_map] at hb
        rcases hb with ⟨r, hrmem, hrb⟩
        rw [mem_sortLe, List.mem_filter] at hrmem
        rcases hrmem with ⟨_, hpred⟩
        simp only [Bool.and_eq_true, beq_iff_eq, decide_eq_true_eq] at hpred
        rw [← hrb]
        exact hpred.2
      · intro b
        rw [hbars2, List.mem_map]
        constructor
        · rintro ⟨r, hrmem, hrb⟩
          rw [mem_sortLe, List.mem_filter] at hrmem
          rcases hrmem with ⟨hrd, hpred⟩
          simp only [Bool.and_eq_true, beq_iff_eq, decide_eq_true_eq] at hpred
          exact ⟨r, hrd, hpred.1, hpred.2, hrb⟩
        · rintro ⟨r, hrd, hsym, hdate, hrb⟩
          refine ⟨r, ?_, hrb⟩
          rw [mem_sortLe, List.mem_filter]
          exact ⟨hrd, by simp [hsym, hdate]⟩

/-- C1: when the live fetch raises, fetch_data returns success True with
exactly the two previously cached values and an unchanged database if
and only if both the cached bars and the cached company info were
present before the fetch; otherwise it returns success False with no
bars, no info, the raised message, and an unchanged database. -/
theorem fetch_data_fallback (db : DB) (symbol period interval : String) (now : Nat)
    (rf1 rf2 sf1 sf2 : Bool) (msg : String) :
    ((get_cached_stock_data db symbol period now rf1).isSome = true ∧
        (get_company_info_from_db db symbol rf2).isSome = true →
      fetch_data db symbol period interval now rf1 rf2 sf1 sf2 (.raises msg) =
        (db, ⟨get_cached_stock_data db symbol period now rf1,
          get_company_info_from_db db symbol rf2, true, none⟩)) ∧
    (¬((get_cached_stock_data db symbol period now rf1).isSome = true ∧
        (get_company_info_from_db db symbol rf2).isSome = true) →
      fetch_data db symbol period interval now rf1 rf2 sf1 sf2 (.raises msg) =
        (db, ⟨none, none, false, some msg⟩)) := by
  constructor
  · intro h
    have hb : ((get_cached_stock_data db symbol period now rf1).isSome &&
        (get_company_info_from_db db symbol rf2).isSome) = true := by
      rw [h.1, h.2]
      rfl
    simp [fetch_data, hb]
  · intro h
    have hb : ((get_cached_stock_data db symbol period now rf1).isSome &&
        (get_company_info_from_db db symbol rf2).isSome) = false := by
      cases hc : (get_cached_stock_data db symbol period now rf1).isSome <;>
        cases hd : (get_company_info_from_db db symbol rf2).isSome <;>
        simp_all
    simp [fetch_data, hb]

theorem fetch_data_fallback_w :
    fetch_data emptyDB "AAPL" "1mo" "1d" 100 false false false false (.raises "boom") =
      (emptyDB, ⟨none, none, false, some "boom"⟩) :=
  (fetch_data_fallback emptyDB "AAPL" "1mo" "1d" 100 false false false false "boom").2
    (by decide)

/-- C2: an info dict without the regularMarketPrice key makes fetch_data
raise the symbol-not-found ValueError internally (whatever history came
back, nothing is persisted), and with no usable cache the returned
failure carries that message, which contains the words not found. -/
theorem fetch_data_not_found (db : DB) (symbol period interval : String) (now : Nat)
    (rf1 rf2 sf1 sf2 : Bool) (hist : List Bar) (info : InfoDict)
    (hprice : info.regularMarketPrice = none)
    (hcache : ¬((get_cached_stock_data db symbol period now rf1).isSome = true ∧
      (get_company_info_from_db db symbol rf2).isSome = true)) :
    fetch_data db symbol period interval now rf1 rf2 sf1 sf2 (.ok hist info) =
      (db, ⟨none, none, false, some (notFoundMsg symbol)⟩) ∧
    ∃ pre post, notFoundMsg symbol = pre ++ ("not found" ++ post) := by
  constructor
  · have hb : ((get_cached_stock_data db symbol period now rf1).isSome &&
        (get_company_info_from_db db symbol rf2).isSome) = false := by
      cases hc : (get_cached_stock_data db symbol period now rf1).isSome <;>
        cases hd : (get_company_info_from_db db symbol rf2).isSome <;>
        simp_all
    simp [fetch_data, hb, hprice]
  · exact ⟨"Symbol " ++ sQuote ++ symbol ++ sQuote ++ " ", " or no data available.", rfl⟩

theorem fetch_data_not_found_w :
    fetch_data emptyDB "BADSYM" "1mo" "1d" 100 false false false false
        (.ok [] ⟨none, none, none, none, none, none, none, none, none, none⟩) =
      (emptyDB, ⟨none, none, false, some (notFoundMsg "BADSYM")⟩) :=
  (fetch_data_not_found emptyDB "BADSYM" "1mo" "1d" 100 false false false false []
    ⟨none, none, none, none, none, none, none, none, none, none⟩ rfl (by decide)).1

/-- C8: every persistence operation whose transaction raises is caught
at the operation boundary and converted to a safe default with the
state rolled back unchanged: False for the four writes, None for the
two single reads, and the empty list for get_watchlist. -/
theorem persistence_failure_defaults (db : DB) (S p : String) (bars : List Bar)
    (info : InfoDict) (now t : Nat) :
    save_stock_data db S bars now true = (db, false) ∧
    save_company_info db S info now true = (db, false) ∧
    add_to_watchlist db S t true = (db, false) ∧
    remove_from_watchlist db S true = (db, false) ∧
    get_cached_stock_data db S p now true = none ∧
    get_company_info_from_db db S true = none ∧
    get_watchlist db true = [] := by
  refine ⟨rfl, rfl, rfl, rfl, rfl, rfl, rfl⟩

theorem get_cached_stock_data_window_w :
    [(⟨90, 1, 2, 3, 4, 5⟩ : Bar)] ≠ [] ∧
    List.Pairwise (fun a b : Bar => a.date ≤ b.date) [(⟨90, 1, 2, 3, 4, 5⟩ : Bar)] ∧
    (∀ b ∈ [(⟨90, 1, 2, 3, 4, 5⟩ : Bar)], 100 - windowDays "1mo" ≤ b.date) ∧
    (∀ b, b ∈ [(⟨90, 1, 2, 3, 4, 5⟩ : Bar)] ↔
      ∃ r ∈ (⟨[⟨"AAPL", 90, 1, 2, 3, 4, 5, 95⟩], [], []⟩ : DB).stock_data,
        r.symbol = "AAPL" ∧ 100 - windowDays "1mo" ≤ r.date ∧ rowToBar r = b) :=
  (get_cached_stock_data_window ⟨[⟨"AAPL", 90, 1, 2, 3, 4, 5, 95⟩], [], []⟩
    "AAPL" "1mo" 100).2.2.2 [⟨90, 1, 2, 3, 4, 5⟩] rfl

theorem add_to_watchlist_idempotent_w :
    (add_to_watchlist ((add_to_watchlist emptyDB "AAPL" 1 false).1) "AAPL" 2 false).2 = false ∧
    ((add_to_watchlist ((add_to_watchlist emptyDB "AAPL" 1 false).1) "AAPL" 2 false).1).user_watchlist.countP
      (fun w => w.symbol == "AAPL" && w.is_active) = 1 :=
  (add_to_watchlist_idempotent emptyDB "AAPL" 1 2).2.2 (by decide)

theorem remove_from_watchlist_deactivates_w :
    remove_from_watchlist emptyDB "NVDA" false = (emptyDB, false) :=
  (remove_from_watchlist_deactivates emptyDB "NVDA" 0).2.2.1 (by decide)

theorem get_watchlist_order_w :
    "TSLA" ∈ get_watchlist (⟨[], [], [⟨"TSLA", 5, true⟩]⟩ : DB) false :=
  ((get_watchlist_order ⟨[], [], [⟨"TSLA", 5, true⟩]⟩).1 "TSLA").mpr
    ⟨⟨"TSLA", 5, true⟩, by decide, rfl, rfl⟩

theorem watchlist_at_most_one_active_w :
    atMostOneActive ((add_to_watchlist emptyDB "AAPL" 1 false).1) ∧
    atMostOneActive ((remove_from_watchlist emptyDB "AAPL" false).1) :=
  watchlist_at_most_one_active emptyDB "AAPL" 1 false
    (by unfold atMostOneActive; intro S; simp [emptyDB])

theorem save_stock_data_frame_old_rows_w :
    (∀ r ∈ (⟨[⟨"AAPL", 10, 1, 2, 3, 4, 5, 9⟩], [], []⟩ : DB).stock_data, r.date < 100 - 30 →
      r ∈ ((save_stock_data ⟨[⟨"AAPL", 10, 1, 2, 3, 4, 5, 9⟩], [], []⟩ "AAPL"
        [⟨10, 6, 7, 8, 9, 10⟩] 100 false).1).stock_data) ∧
    ((save_stock_data ⟨[⟨"AAPL", 10, 1, 2, 3, 4, 5, 9⟩], [], []⟩ "AAPL"
        [⟨10, 6, 7, 8, 9, 10⟩] 100 false).1).stock_data.countP
      (fun r => r.symbol == "AAPL" && r.date == 10) =
      (⟨[⟨"AAPL", 10, 1, 2, 3, 4, 5, 9⟩], [], []⟩ : DB).stock_data.countP
        (fun r => r.symbol == "AAPL" && r.date == 10) +
        [(⟨10, 6, 7, 8, 9, 10⟩ : Bar)].countP (fun b => b.date == 10) :=
  save_stock_data_frame_old_rows ⟨[⟨"AAPL", 10, 1, 2, 3, 4, 5, 9⟩], [], []⟩ "AAPL"
    [⟨10, 6, 7, 8, 9, 10⟩] 100 10 (by decide)
